import Mathlib

/-!
Verification of the Tidal provider adapter
(`music_assistant/server/providers/tidal/__init__.py`).

The adapter is embedded shallowly:

* `datetime` values are modelled as `Int` instants (seconds); the
  `timedelta(minutes=30)` safety margin becomes the constant `thirtyMinutes`,
  and `isoformat`/`fromisoformat` become decimal rendering/parsing of that
  integer.
* The host configuration store (`self.mass.config`) is modelled as a write log
  `Config = List (String, String)` with last-write-wins lookup.
* The vendor SDK and the helper module (`helpers.py`, not part of the
  fragment) are collaborators: their calls are oracle parameters
  (`sdk : Except String SessionObj`, `trackLookup : Option SdkTrack`, ...), and
  the translation helpers (`parse_track`, `parse_playlist`, ...) are modelled
  from the spec as trivial field mappings.
* Exceptions become `Except` results; `PyErr.typeError` stands for the
  `TypeError` Python raises when comparing `None` with a `datetime`.
-/

/-- Tidal session handle as exposed by the SDK (`tidalapi.Session`): the fields
the adapter reads (`access_token`, `refresh_token`, `expiry_time`, `user.id`).
Modelled from the spec: the session-establishment routine returns a session
object exposing a (possibly rotated) access token, refresh token, expiry
timestamp, and user id. -/
structure SessionObj where
  access_token : String
  refresh_token : String
  expiry_time : Int
  user_id : Nat
deriving DecidableEq

/-- In-memory state of a `TidalProvider` instance: the class attributes
`_token_type`, `_access_token`, `_refresh_token`, `_expiry_time`,
`_tidal_user_id`, `_tidal_session` (lines 117-122), all `None` initially. -/
structure TidalState where
  _token_type : Option String
  _access_token : Option String
  _refresh_token : Option String
  _expiry_time : Option Int
  _tidal_user_id : Option Nat
  _tidal_session : Option SessionObj
deriving DecidableEq

/-- Fresh provider state: every class attribute defaults to `None`. -/
def initState : TidalState := ⟨none, none, none, none, none, none⟩

/-- The host configuration store, modelled as a write log (most recent write
first). -/
abbrev Config : Type := List (String × String)

/-- One `self.mass.config.set(key, value)` call: prepend to the write log. -/
def configSet (cfg : Config) (key value : String) : Config := (key, value) :: cfg

/-- One `self.mass.config.get(key)` call: last-write-wins lookup. -/
def configGet : Config → String → Option String
  | [], _ => none
  | (k, v) :: rest, key => if k = key then some v else configGet rest key

/-- Modelled from the spec: the four credential keys imported from
`music_assistant.constants`; their exact string values are opaque, modelled as
four distinct identifiers. -/
def CONF_USERNAME : String := "username"

/-- Modelled from the spec: see `CONF_USERNAME`. -/
def CONF_ACCESS_TOKEN : String := "access_token"

/-- Modelled from the spec: see `CONF_USERNAME`. -/
def CONF_REFRESH_TOKEN : String := "refresh_token"

/-- Modelled from the spec: see `CONF_USERNAME`. -/
def CONF_EXPIRY_TIME : String := "expiry_time"

/-- Provider-instance-scoped configuration key, as built by the f-strings
`f"providers/{self.instance_id}/values/{FIELD}"`. -/
def confKey (instance_id fieldName : String) : String :=
  "providers/" ++ instance_id ++ "/values/" ++ fieldName

/-- The `timedelta(minutes=30)` safety margin, with time modelled in seconds. -/
def thirtyMinutes : Int := 30 * 60

/-- `datetime.isoformat`, modelled as decimal rendering of the instant. -/
def isoformatI (t : Int) : String := toString t

/-- `datetime.fromisoformat`, modelled as decimal parsing; `none` models the
`ValueError` raised on an unparsable string. -/
def fromisoformatI (s : String) : Option Int := s.toInt?

/-- Errors surfaced by the embedded adapter operations. -/
inductive PyErr where
  /-- `TypeError` from comparing `None` with a `datetime` (login line 369). -/
  | typeError
  /-- `ValueError` from `datetime.fromisoformat` on a bad string. -/
  | valueError
  /-- A failure raised by the SDK session-establishment call, with an opaque
  payload identifying it. -/
  | sdkFailure (detail : String)
  /-- `MediaNotFoundError(msg)`. -/
  | mediaNotFound (msg : String)
  /-- Any other exception, with an opaque payload. -/
  | otherError (detail : String)
deriving DecidableEq

instance {ε α : Type} [DecidableEq ε] [DecidableEq α] : DecidableEq (Except ε α) := fun a b => by
  cases a <;> cases b
  case error.error e f => exact decidable_of_iff (e = f) (by simp)
  case error.ok e x => exact .isFalse (by simp)
  case ok.error x e => exact .isFalse (by simp)
  case ok.ok x y => exact decidable_of_iff (x = y) (by simp)

/-- Result of one `login` (or `handle_setup`) call: the post-call in-memory
state, the post-call configuration store, the returned handle or the
propagated exception, and how many SDK session-establishment calls were
made. -/
structure LoginOutcome where
  state : TidalState
  config : Config
  result : Except PyErr SessionObj
  sdkCalls : Nat
deriving DecidableEq

/-- The fast-path condition of `login` (lines 366-370):
`self._tidal_session and self._tidal_session.access_token == self._access_token
and self._expiry_time > (datetime.now() + timedelta(minutes=30))`, evaluated
with Python short-circuiting. `.ok (some s)` means the condition holds and the
cached handle `s` is returned; `.ok none` means the slow path is taken;
`.error .typeError` models the comparison of a `None` expiry with a
`datetime`. -/
def TidalProvider.fastPath (st : TidalState) (now : Int) :
    Except PyErr (Option SessionObj) :=
  match st._tidal_session with
  | none => .ok none
  | some s =>
    if st._access_token = some s.access_token then
      match st._expiry_time with
      | none => .error .typeError
      | some t => if now + thirtyMinutes < t then .ok (some s) else .ok none
    else .ok none

/-- `TidalProvider.login` (lines 364-396). The SDK call
`tidal_session(TOKEN_TYPE, access, refresh, expiry)` is the oracle `sdk`: its
`Except` value is what that call would return or raise. On the fast path the
cached handle is returned; otherwise the SDK call is made once, and on success
the four credential fields are written to the configuration store (user id as
`str(session.user.id)`, expiry as `isoformat`) and the in-memory fields are
replaced by the session's values. -/
def TidalProvider.login (st : TidalState) (cfg : Config) (instance_id : String)
    (now : Int) (sdk : Except String SessionObj) : LoginOutcome :=
  match TidalProvider.fastPath st now with
  | .error e => ⟨st, cfg, .error e, 0⟩
  | .ok (some s) => ⟨st, cfg, .ok s, 0⟩
  | .ok none =>
    match sdk with
    | .error e => ⟨st, cfg, .error (.sdkFailure e), 1⟩
    | .ok session =>
      let cfg := configSet cfg (confKey instance_id CONF_USERNAME)
        (toString session.user_id)
      let cfg := configSet cfg (confKey instance_id CONF_ACCESS_TOKEN)
        session.access_token
      let cfg := configSet cfg (confKey instance_id CONF_REFRESH_TOKEN)
        session.refresh_token
      let cfg := configSet cfg (confKey instance_id CONF_EXPIRY_TIME)
        (isoformatI session.expiry_time)
      ⟨{ st with
          _access_token := some session.access_token,
          _refresh_token := some session.refresh_token,
          _expiry_time := some session.expiry_time,
          _tidal_user_id := some session.user_id,
          _tidal_session := some session },
        cfg, .ok session, 1⟩

/-- `TidalProvider.handle_setup` (lines 124-145): load the three credential
fields from the configuration store (keeping the `None` default on a missing or
empty value, parsing the expiry from its ISO form), then call `login`. -/
def TidalProvider.handle_setup (cfg : Config) (instance_id : String) (now : Int)
    (sdk : Except String SessionObj) : LoginOutcome :=
  let access_token := configGet cfg (confKey instance_id CONF_ACCESS_TOKEN)
  let refresh_token := configGet cfg (confKey instance_id CONF_REFRESH_TOKEN)
  let expiry_time := configGet cfg (confKey instance_id CONF_EXPIRY_TIME)
  let st₁ := match access_token with
    | some s => if s = "" then initState else { initState with _access_token := some s }
    | none => initState
  let st₂ := match refresh_token with
    | some s => if s = "" then st₁ else { st₁ with _refresh_token := some s }
    | none => st₁
  match expiry_time with
  | some s =>
    if s = "" then TidalProvider.login st₂ cfg instance_id now sdk
    else
      match fromisoformatI s with
      | none => ⟨st₂, cfg, .error .valueError, 0⟩
      | some t =>
          TidalProvider.login { st₂ with _expiry_time := some t } cfg instance_id now sdk
  | none => TidalProvider.login st₂ cfg instance_id now sdk

/-- Adapter states reachable through `handle_setup` and subsequent `login`
calls (every other public operation leaves the session fields untouched;
`get_stream_details`'s session re-validation is itself a `login` call, covered
by `loginStep`). -/
inductive Reachable : TidalState → Prop where
  | setup (cfg : Config) (instance_id : String) (now : Int)
      (sdk : Except String SessionObj) :
      Reachable (TidalProvider.handle_setup cfg instance_id now sdk).state
  | loginStep (st : TidalState) (cfg : Config) (instance_id : String) (now : Int)
      (sdk : Except String SessionObj) (h : Reachable st) :
      Reachable (TidalProvider.login st cfg instance_id now sdk).state

/-- The session-coherence invariant: a cached handle is never present without a
cached expiry time and a cached access token. -/
def sessionInv (st : TidalState) : Prop :=
  st._tidal_session.isSome → st._expiry_time.isSome ∧ st._access_token.isSome

/-- Tidal SDK track object, with the fields the adapter reads: `id`,
`duration`, `available`. Ids are opaque strings. -/
structure SdkTrack where
  id : String
  duration : Nat
  available : Bool
deriving DecidableEq

/-- Normalized (host-side) track: provider-scoped id, duration, and the
position assigned by the listing operations. -/
structure MaTrack where
  item_id : String
  duration : Nat
  position : Nat
deriving DecidableEq

/-- Modelled from the spec: `helpers.parse_track` is out of scope ("trivial
field mapping"); modelled as the direct field copy, with position initially
0 (callers assign it). -/
def parse_track (track_obj : SdkTrack) : MaTrack :=
  ⟨track_obj.id, track_obj.duration, 0⟩

/-- `TidalProvider.get_album_tracks` (lines 219-228): enumerate the SDK track
sequence from 1, keep only available tracks, and assign each kept track the
enumeration index as its position. The SDK listing call is the `tracks`
parameter. -/
def TidalProvider.get_album_tracks (tracks : List SdkTrack) : List MaTrack :=
  (List.enumFrom 1 tracks).filterMap fun p =>
    if p.2.available then some { parse_track p.2 with position := p.1 } else none

/-- `TidalProvider.get_artist_toptracks` (lines 239-248): same loop as
`get_album_tracks`. -/
def TidalProvider.get_artist_toptracks (tracks : List SdkTrack) : List MaTrack :=
  (List.enumFrom 1 tracks).filterMap fun p =>
    if p.2.available then some { parse_track p.2 with position := p.1 } else none

/-- `TidalProvider.get_playlist_tracks` (lines 250-258): enumerate from 0,
keep only available tracks, assign position `index + 1`. The `if track:`
guard after the translation is always true (the translation always yields a
value) and is dropped. -/
def TidalProvider.get_playlist_tracks (tracks : List SdkTrack) : List MaTrack :=
  tracks.enum.filterMap fun p =>
    if p.2.available then some { parse_track p.2 with position := p.1 + 1 } else none

/-- The collection loop of `TidalProvider.remove_playlist_tracks`
(lines 293-298): walk the playlist's (filtered, positioned) tracks, append the
id of each track whose position is in the requested set, and stop as soon as
as many ids as requested positions have been collected. -/
def TidalProvider.remove_playlist_tracks_loop (positions_to_remove : List Nat) :
    List MaTrack → List String → List String
  | [], acc => acc
  | track :: rest, acc =>
    let acc' := if track.position ∈ positions_to_remove
      then acc ++ [track.item_id] else acc
    if acc'.length = positions_to_remove.length then acc'
    else TidalProvider.remove_playlist_tracks_loop positions_to_remove rest acc'

/-- `TidalProvider.remove_playlist_tracks` (lines 289-301): re-list the
playlist's tracks, collect ids at the requested positions (with early stop),
and hand the collected ids to the single batch
`add_remove_playlist_tracks(..., add=False)` call. The returned list is the id
list of that batch call. -/
def TidalProvider.remove_playlist_tracks (tracks : List SdkTrack)
    (positions_to_remove : List Nat) : List String :=
  TidalProvider.remove_playlist_tracks_loop positions_to_remove
    (TidalProvider.get_playlist_tracks tracks) []

/-- The content encodings relevant to the descriptor; the adapter always
reports `flac`. -/
inductive ContentType where
  | flac
  | mp3
deriving DecidableEq

/-- The stream descriptor built by `get_stream_details` (lines 318-324). -/
structure StreamDetails where
  item_id : String
  provider : String
  content_type : ContentType
  duration : Nat
  direct : String
deriving DecidableEq

/-- Result of one `get_stream_details` call: post-call state and store, the
descriptor or the raised error, and how many `login` calls were made. -/
structure StreamOutcome where
  state : TidalState
  config : Config
  result : Except PyErr StreamDetails
  loginCalls : Nat
deriving DecidableEq

/-- `TidalProvider.get_stream_details` (lines 309-324): fetch the track
metadata and the direct URL (oracles `trackLookup` and `urlLookup`; a metadata
lookup yielding no track is `trackLookup = none`), raise `MediaNotFoundError`
naming the requested id when no track was found, otherwise re-validate the
session via `login` and build the descriptor from the track's id and duration,
the provider instance id, the fixed `FLAC` encoding, and the URL. -/
def TidalProvider.get_stream_details (st : TidalState) (cfg : Config)
    (instance_id : String) (item_id : String) (now : Int)
    (trackLookup : Option SdkTrack) (urlLookup : String)
    (sdk : Except String SessionObj) : StreamOutcome :=
  match trackLookup with
  | none => ⟨st, cfg, .error (.mediaNotFound ("track " ++ item_id ++ " not found")), 0⟩
  | some track =>
    let lo := TidalProvider.login st cfg instance_id now sdk
    match lo.result with
    | .error e => ⟨lo.state, lo.config, .error e, 1⟩
    | .ok _ =>
      ⟨lo.state, lo.config,
        .ok ⟨track.id, instance_id, .flac, track.duration, urlLookup⟩, 1⟩

/-- Tidal SDK artist object (fields the translation reads). -/
structure SdkArtist where
  id : String
  name : String
deriving DecidableEq

/-- Tidal SDK album object (fields the translation reads). -/
structure SdkAlbum where
  id : String
  name : String
deriving DecidableEq

/-- Tidal SDK playlist object (fields the translation reads). -/
structure SdkPlaylist where
  id : String
  name : String
deriving DecidableEq

/-- Normalized artist. -/
structure MaArtist where
  item_id : String
  name : String
deriving DecidableEq

/-- Normalized album. -/
structure MaAlbum where
  item_id : String
  name : String
deriving DecidableEq

/-- Normalized playlist. -/
structure MaPlaylist where
  item_id : String
  name : String
deriving DecidableEq

/-- Modelled from the spec: `helpers.parse_artist`, trivial field mapping. -/
def parse_artist (artist_obj : SdkArtist) : MaArtist := ⟨artist_obj.id, artist_obj.name⟩

/-- Modelled from the spec: `helpers.parse_album`, trivial field mapping. -/
def parse_album (album_obj : SdkAlbum) : MaAlbum := ⟨album_obj.id, album_obj.name⟩

/-- Modelled from the spec: `helpers.parse_playlist`, trivial field mapping. -/
def parse_playlist (playlist_obj : SdkPlaylist) : MaPlaylist :=
  ⟨playlist_obj.id, playlist_obj.name⟩

/-- `TidalProvider.get_artist` (lines 326-334): the SDK fetch is the oracle
`fetch`; a `MediaNotFoundError` raised inside the `try` block is re-raised
with the message `"Artist {id} not found"`, every other exception propagates
unchanged. The translation call is constructed but not awaited in the source,
so it raises nothing inside the `try` block; it is modelled as the (total)
field mapping applied to the fetched object. -/
def TidalProvider.get_artist (fetch : Except PyErr SdkArtist)
    (prov_artist_id : String) : Except PyErr MaArtist :=
  match fetch with
  | .error (.mediaNotFound _) =>
    .error (.mediaNotFound ("Artist " ++ prov_artist_id ++ " not found"))
  | .error e => .error e
  | .ok artist_obj => .ok (parse_artist artist_obj)

/-- `TidalProvider.get_album` (lines 336-343): same boundary as
`TidalProvider.get_artist`, with message `"Album {id} not found"`. -/
def TidalProvider.get_album (fetch : Except PyErr SdkAlbum)
    (prov_album_id : String) : Except PyErr MaAlbum :=
  match fetch with
  | .error (.mediaNotFound _) =>
    .error (.mediaNotFound ("Album " ++ prov_album_id ++ " not found"))
  | .error e => .error e
  | .ok album_obj => .ok (parse_album album_obj)

/-- `TidalProvider.get_track` (lines 345-352): same boundary, with message
`"Track {id} not found"`. -/
def TidalProvider.get_track (fetch : Except PyErr SdkTrack)
    (prov_track_id : String) : Except PyErr MaTrack :=
  match fetch with
  | .error (.mediaNotFound _) =>
    .error (.mediaNotFound ("Track " ++ prov_track_id ++ " not found"))
  | .error e => .error e
  | .ok track_obj => .ok (parse_track track_obj)

/-- `TidalProvider.get_playlist` (lines 354-362): same boundary, with message
`"Playlist {id} not found"`. -/
def TidalProvider.get_playlist (fetch : Except PyErr SdkPlaylist)
    (prov_playlist_id : String) : Except PyErr MaPlaylist :=
  match fetch with
  | .error (.mediaNotFound _) =>
    .error (.mediaNotFound ("Playlist " ++ prov_playlist_id ++ " not found"))
  | .error e => .error e
  | .ok playlist_obj => .ok (parse_playlist playlist_obj)

/-- The apostrophe character, written by code point to keep the source free of
quote-literals. -/
def apostrophe : Char := Char.ofNat 39

/-- The arguments `TidalProvider.search` (lines 168-178) submits to the
catalog lookup `helpers.search`. -/
structure SearchArgs where
  query : String
  limit : Nat
deriving DecidableEq

/-- `TidalProvider.search`, line 177-178: the query is submitted with
`search_query.replace(APOSTROPHE, "")` applied first; replacing every
occurrence of a single-character pattern by the empty string is exactly
filtering that character out of the character sequence. -/
def TidalProvider.search (search_query : String) (limit : Nat) : SearchArgs :=
  ⟨String.mk (search_query.data.filter fun c => c ≠ apostrophe), limit⟩

/-- The externally visible effects of one `create_playlist` call. -/
inductive CreatePlaylistEffect where
  /-- The remote `helpers.create_playlist` SDK call, with the requested name. -/
  | remoteCreate (name : String)
  /-- The host-database `add_db_item` persistence call, with the translated
  playlist handed to it. -/
  | dbAdd (playlist : MaPlaylist)
deriving DecidableEq

/-- `TidalProvider.create_playlist` (lines 303-307): create the remote
playlist (oracle `sdkCreate`), translate it, persist the translation through
the host database (oracle `add_db_item`), and return the persisted
representation. The second component logs the performed effect calls in
order. -/
def TidalProvider.create_playlist (sdkCreate : String → SdkPlaylist)
    (add_db_item : MaPlaylist → MaPlaylist) (name : String) :
    MaPlaylist × List CreatePlaylistEffect :=
  let playlist_obj := sdkCreate name
  let playlist := parse_playlist playlist_obj
  (add_db_item playlist, [.remoteCreate name, .dbAdd playlist])

lemma confKey_injective (instance_id f g : String)
    (h : confKey instance_id f = confKey instance_id g) : f = g := by
  unfold confKey at h
  have h2 := congrArg String.data h
  simp only [String.data_append] at h2
  have h3 := List.append_cancel_left h2
  cases f; cases g; exact congrArg String.mk h3

lemma confKey_ne (instance_id : String) {f g : String} (h : f ≠ g) :
    confKey instance_id f ≠ confKey instance_id g :=
  fun hc => h (confKey_injective instance_id f g hc)

/-- C1: whenever a cached session handle exists, its access token equals the
cached access token, and the cached expiry time is more than 30 minutes after
the current time, `login` returns the cached handle unchanged, makes no SDK
session-establishment call, and leaves the in-memory state and the
configuration store exactly as they were. -/
theorem TidalProvider.login_fast_path_returns_cached (st : TidalState)
    (cfg : Config) (instance_id : String) (now : Int)
    (sdk : Except String SessionObj) (s : SessionObj) (t : Int)
    (hs : st._tidal_session = some s)
    (ha : st._access_token = some s.access_token)
    (he : st._expiry_time = some t)
    (hfresh : now + thirtyMinutes < t) :
    TidalProvider.login st cfg instance_id now sdk = ⟨st, cfg, .ok s, 0⟩ := by
  have hfp : TidalProvider.fastPath st now = .ok (some s) := by
    unfold TidalProvider.fastPath
    rw [hs]
    dsimp only
    rw [if_pos ha, he]
    dsimp only
    rw [if_pos hfresh]
  unfold TidalProvider.login
  rw [hfp]

theorem TidalProvider.login_fast_path_returns_cached_witness :
    (({ initState with
        _access_token := some "tok",
        _expiry_time := some 4000,
        _tidal_session := some ⟨"tok", "ref", 4000, 7⟩ } : TidalState)._tidal_session
      = some ⟨"tok", "ref", 4000, 7⟩)
    ∧ (({ initState with
        _access_token := some "tok",
        _expiry_time := some 4000,
        _tidal_session := some ⟨"tok", "ref", 4000, 7⟩ } : TidalState)._access_token
      = some (SessionObj.mk "tok" "ref" 4000 7).access_token)
    ∧ (({ initState with
        _access_token := some "tok",
        _expiry_time := some 4000,
        _tidal_session := some ⟨"tok", "ref", 4000, 7⟩ } : TidalState)._expiry_time
      = some 4000)
    ∧ ((0 : Int) + thirtyMinutes < 4000)
    ∧ TidalProvider.login
        { initState with
          _access_token := some "tok",
          _expiry_time := some 4000,
          _tidal_session := some ⟨"tok", "ref", 4000, 7⟩ } [] "tidal" 0 (.error "down")
      = ⟨{ initState with
          _access_token := some "tok",
          _expiry_time := some 4000,
          _tidal_session := some ⟨"tok", "ref", 4000, 7⟩ }, [], .ok ⟨"tok", "ref", 4000, 7⟩, 0⟩ :=
  ⟨rfl, rfl, rfl, by decide,
    TidalProvider.login_fast_path_returns_cached _ _ _ _ _ _ 4000 rfl rfl rfl (by decide)⟩

/-- C2: whenever the fast-path condition does not hold (no cached session,
token mismatch, or expiry within 30 minutes — `fastPath` evaluates to
`.ok none`), a successful `login` performs the SDK session-establishment call
exactly once, writes all four credential fields to the configuration store
(user id as its decimal rendering, expiry in ISO form), replaces the five
in-memory cached fields with exactly the session's values, and returns the new
handle; afterwards each of the four keys reads back the written value. -/
theorem TidalProvider.login_refresh_replaces_state (st : TidalState)
    (cfg : Config) (instance_id : String) (now : Int) (session : SessionObj)
    (hslow : TidalProvider.fastPath st now = .ok none) :
    (TidalProvider.login st cfg instance_id now (.ok session) =
      ⟨{ st with
          _access_token := some session.access_token,
          _refresh_token := some session.refresh_token,
          _expiry_time := some session.expiry_time,
          _tidal_user_id := some session.user_id,
          _tidal_session := some session },
        configSet (configSet (configSet (configSet cfg
          (confKey instance_id CONF_USERNAME) (toString session.user_id))
          (confKey instance_id CONF_ACCESS_TOKEN) session.access_token)
          (confKey instance_id CONF_REFRESH_TOKEN) session.refresh_token)
          (confKey instance_id CONF_EXPIRY_TIME) (isoformatI session.expiry_time),
        .ok session, 1⟩)
    ∧ configGet (TidalProvider.login st cfg instance_id now (.ok session)).config
        (confKey instance_id CONF_USERNAME) = some (toString session.user_id)
    ∧ configGet (TidalProvider.login st cfg instance_id now (.ok session)).config
        (confKey instance_id CONF_ACCESS_TOKEN) = some session.access_token
    ∧ configGet (TidalProvider.login st cfg instance_id now (.ok session)).config
        (confKey instance_id CONF_REFRESH_TOKEN) = some session.refresh_token
    ∧ configGet (TidalProvider.login st cfg instance_id now (.ok session)).config
        (confKey instance_id CONF_EXPIRY_TIME) = some (isoformatI session.expiry_time) := by
  have h1 : TidalProvider.login st cfg instance_id now (.ok session) =
      ⟨{ st with
          _access_token := some session.access_token,
          _refresh_token := some session.refresh_token,
          _expiry_time := some session.expiry_time,
          _tidal_user_id := some session.user_id,
          _tidal_session := some session },
        configSet (configSet (configSet (configSet cfg
          (confKey instance_id CONF_USERNAME) (toString session.user_id))
          (confKey instance_id CONF_ACCESS_TOKEN) session.access_token)
          (confKey instance_id CONF_REFRESH_TOKEN) session.refresh_token)
          (confKey instance_id CONF_EXPIRY_TIME) (isoformatI session.expiry_time),
        .ok session, 1⟩ := by
    unfold TidalProvider.login
    rw [hslow]
  have d1 : confKey instance_id CONF_EXPIRY_TIME ≠ confKey instance_id CONF_USERNAME :=
    confKey_ne instance_id (by decide)
  have d2 : confKey instance_id CONF_EXPIRY_TIME ≠ confKey instance_id CONF_ACCESS_TOKEN :=
    confKey_ne instance_id (by decide)
  have d3 : confKey instance_id CONF_EXPIRY_TIME ≠ confKey instance_id CONF_REFRESH_TOKEN :=
    confKey_ne instance_id (by decide)
  have d4 : confKey instance_id CONF_REFRESH_TOKEN ≠ confKey instance_id CONF_USERNAME :=
    confKey_ne instance_id (by decide)
  have d5 : confKey instance_id CONF_REFRESH_TOKEN ≠ confKey instance_id CONF_ACCESS_TOKEN :=
    confKey_ne instance_id (by decide)
  have d6 : confKey instance_id CONF_ACCESS_TOKEN ≠ confKey instance_id CONF_USERNAME :=
    confKey_ne instance_id (by decide)
  refine ⟨h1, ?_, ?_, ?_, ?_⟩ <;>
    rw [h1] <;> simp [configSet, configGet, d1, d2, d3, d4, d5, d6]

theorem TidalProvider.login_refresh_replaces_state_witness :
    (TidalProvider.fastPath initState 0 = .ok none)
    ∧ (TidalProvider.login initState [] "tidal" 0 (.ok ⟨"at", "rt", 9, 5⟩) =
      ⟨{ initState with
          _access_token := some "at",
          _refresh_token := some "rt",
          _expiry_time := some 9,
          _tidal_user_id := some 5,
          _tidal_session := some ⟨"at", "rt", 9, 5⟩ },
        configSet (configSet (configSet (configSet []
          (confKey "tidal" CONF_USERNAME) (toString (5 : Nat)))
          (confKey "tidal" CONF_ACCESS_TOKEN) "at")
          (confKey "tidal" CONF_REFRESH_TOKEN) "rt")
          (confKey "tidal" CONF_EXPIRY_TIME) (isoformatI 9),
        .ok ⟨"at", "rt", 9, 5⟩, 1⟩)
    ∧ configGet (TidalProvider.login initState [] "tidal" 0 (.ok ⟨"at", "rt", 9, 5⟩)).config
        (confKey "tidal" CONF_USERNAME) = some (toString (5 : Nat))
    ∧ configGet (TidalProvider.login initState [] "tidal" 0 (.ok ⟨"at", "rt", 9, 5⟩)).config
        (confKey "tidal" CONF_ACCESS_TOKEN) = some "at"
    ∧ configGet (TidalProvider.login initState [] "tidal" 0 (.ok ⟨"at", "rt", 9, 5⟩)).config
        (confKey "tidal" CONF_REFRESH_TOKEN) = some "rt"
    ∧ configGet (TidalProvider.login initState [] "tidal" 0 (.ok ⟨"at", "rt", 9, 5⟩)).config
        (confKey "tidal" CONF_EXPIRY_TIME) = some (isoformatI 9) :=
  ⟨by decide, TidalProvider.login_refresh_replaces_state initState [] "tidal" 0 ⟨"at", "rt", 9, 5⟩ (by decide)⟩

/-- C3: whenever the slow path is taken and the SDK session-establishment call
fails, `login` propagates the failure, makes exactly one SDK call (no retry),
and leaves the in-memory state and the configuration store exactly as they
were (no partial overwrite). -/
theorem TidalProvider.login_refresh_failure_preserves_state (st : TidalState)
    (cfg : Config) (instance_id : String) (now : Int) (e : String)
    (hslow : TidalProvider.fastPath st now = .ok none) :
    TidalProvider.login st cfg instance_id now (.error e) =
      ⟨st, cfg, .error (.sdkFailure e), 1⟩ := by
  unfold TidalProvider.login
  rw [hslow]

theorem TidalProvider.login_refresh_failure_preserves_state_witness :
    (TidalProvider.fastPath
      ({ initState with
          _access_token := some "old",
          _refresh_token := some "oldr",
          _expiry_time := some 100,
          _tidal_session := some ⟨"old", "oldr", 100, 3⟩ } : TidalState) 0 = .ok none)
    ∧ TidalProvider.login
        { initState with
          _access_token := some "old",
          _refresh_token := some "oldr",
          _expiry_time := some 100,
          _tidal_session := some ⟨"old", "oldr", 100, 3⟩ } [("k", "v")] "tidal" 0
        (.error "network down")
      = ⟨{ initState with
          _access_token := some "old",
          _refresh_token := some "oldr",
          _expiry_time := some 100,
          _tidal_session := some ⟨"old", "oldr", 100, 3⟩ }, [("k", "v")],
          .error (.sdkFailure "network down"), 1⟩ :=
  ⟨by decide,
    TidalProvider.login_refresh_failure_preserves_state _ _ _ _ _ (by decide)⟩

lemma sessionInv_of_none (st : TidalState) (h : st._tidal_session = none) :
    sessionInv st := by
  intro hs
  rw [h] at hs
  simp at hs

lemma login_preserves_sessionInv (st : TidalState) (cfg : Config)
    (instance_id : String) (now : Int) (sdk : Except String SessionObj)
    (h : sessionInv st) :
    sessionInv (TidalProvider.login st cfg instance_id now sdk).state := by
  unfold TidalProvider.login
  cases hfp : TidalProvider.fastPath st now with
  | error e => exact h
  | ok o =>
    cases o with
    | some s => exact h
    | none =>
      cases sdk with
      | error e => exact h
      | ok session => exact fun _ => ⟨rfl, rfl⟩

lemma handle_setup_sessionInv (cfg : Config) (instance_id : String) (now : Int)
    (sdk : Except String SessionObj) :
    sessionInv (TidalProvider.handle_setup cfg instance_id now sdk).state := by
  unfold TidalProvider.handle_setup
  dsimp only
  repeat' split
  all_goals
    first
      | exact login_preserves_sessionInv _ _ _ _ _ (sessionInv_of_none _ rfl)
      | exact sessionInv_of_none _ rfl

lemma reachable_sessionInv (st : TidalState) (h : Reachable st) : sessionInv st := by
  induction h with
  | setup cfg instance_id now sdk => exact handle_setup_sessionInv cfg instance_id now sdk
  | loginStep st cfg instance_id now sdk _ ih =>
    exact login_preserves_sessionInv st cfg instance_id now sdk ih

lemma fastPath_ne_error (st : TidalState) (now : Int) (h : sessionInv st)
    (e : PyErr) : TidalProvider.fastPath st now ≠ .error e := by
  unfold TidalProvider.fastPath
  cases hs : st._tidal_session with
  | none => simp
  | some s =>
    obtain ⟨he, _⟩ := h (by rw [hs]; rfl)
    dsimp only
    by_cases hacc : st._access_token = some s.access_token
    · rw [if_pos hacc]
      cases het : st._expiry_time with
      | none => rw [het] at he; simp at he
      | some t =>
        dsimp only
        split <;> simp
    · rw [if_neg hacc]
      simp

/-- C10: in every adapter state reachable through `handle_setup` and the
public operations (only `login` mutates the session fields), a non-`None`
cached session handle comes with a non-`None` cached expiry time and access
token, so the fast-path comparison of the expiry against `now + 30 min` is
never evaluated on an absent expiry and `login` never fails with a
`TypeError`. -/
theorem TidalProvider.reachable_state_login_safe (st : TidalState)
    (h : Reachable st) :
    (st._tidal_session.isSome → st._expiry_time.isSome ∧ st._access_token.isSome)
    ∧ ∀ (cfg : Config) (instance_id : String) (now : Int)
        (sdk : Except String SessionObj),
        (TidalProvider.login st cfg instance_id now sdk).result ≠
          .error .typeError := by
  have hinv := reachable_sessionInv st h
  refine ⟨hinv, ?_⟩
  intro cfg instance_id now sdk
  unfold TidalProvider.login
  cases hfp : TidalProvider.fastPath st now with
  | error e => exact absurd hfp (fastPath_ne_error st now hinv e)
  | ok o =>
    cases o with
    | some s => simp
    | none =>
      cases sdk with
      | error e => simp
      | ok session => simp

theorem TidalProvider.reachable_state_login_safe_witness :
    ((TidalProvider.handle_setup [] "tidal" 0
        (Except.ok ⟨"at", "rt", 7200, 42⟩)).state._tidal_session.isSome = true)
    ∧ ((TidalProvider.handle_setup [] "tidal" 0
        (Except.ok ⟨"at", "rt", 7200, 42⟩)).state._tidal_session.isSome →
      (TidalProvider.handle_setup [] "tidal" 0
        (Except.ok ⟨"at", "rt", 7200, 42⟩)).state._expiry_time.isSome
      ∧ (TidalProvider.handle_setup [] "tidal" 0
        (Except.ok ⟨"at", "rt", 7200, 42⟩)).state._access_token.isSome)
    ∧ (TidalProvider.login
        (TidalProvider.handle_setup [] "tidal" 0
          (Except.ok ⟨"at", "rt", 7200, 42⟩)).state [] "other" 5
        (.error "down")).result ≠ .error .typeError :=
  ⟨by decide,
    (TidalProvider.reachable_state_login_safe _
      (Reachable.setup [] "tidal" 0 (.ok ⟨"at", "rt", 7200, 42⟩))).1,
    (TidalProvider.reachable_state_login_safe _
      (Reachable.setup [] "tidal" 0 (.ok ⟨"at", "rt", 7200, 42⟩))).2
      [] "other" 5 (.error "down")⟩

lemma album_tracks_map_id (n : Nat) (tracks : List SdkTrack) :
    (((List.enumFrom n tracks).filterMap fun p =>
        if p.2.available then some { parse_track p.2 with position := p.1 } else none).map
      MaTrack.item_id)
      = (tracks.filter fun t => t.available).map SdkTrack.id := by
  induction tracks generalizing n with
  | nil => rfl
  | cons t ts ih =>
    rw [show List.enumFrom n (t :: ts) = (n, t) :: List.enumFrom (n + 1) ts from rfl]
    rw [List.filterMap_cons]
    dsimp only
    by_cases ha : t.available = true
    · rw [if_pos ha]
      rw [List.filter_cons, if_pos ha, List.map_cons, List.map_cons, ih]
      rfl
    · rw [if_neg ha]
      rw [List.filter_cons, if_neg ha, ih]

lemma album_tracks_mem (n : Nat) (tracks : List SdkTrack) (tr : MaTrack)
    (h : tr ∈ (List.enumFrom n tracks).filterMap fun p =>
        if p.2.available then some { parse_track p.2 with position := p.1 } else none) :
    ∃ i, ∃ hi : i < tracks.length, (tracks.get ⟨i, hi⟩).available = true
      ∧ tr.position = n + i ∧ tr.item_id = (tracks.get ⟨i, hi⟩).id := by
  induction tracks generalizing n with
  | nil => simp [List.enumFrom] at h
  | cons t ts ih =>
    rw [show List.enumFrom n (t :: ts) = (n, t) :: List.enumFrom (n + 1) ts from rfl] at h
    rw [List.filterMap_cons] at h
    dsimp only at h
    by_cases ha : t.available = true
    · rw [if_pos ha] at h
      rcases List.mem_cons.mp h with h1 | h2
      · refine ⟨0, by simp, ha, ?_, ?_⟩
        · rw [h1]; rfl
        · rw [h1]; rfl
      · obtain ⟨i, hi, hav, hpos, hid⟩ := ih (n + 1) h2
        exact ⟨i + 1, Nat.succ_lt_succ hi, hav, by omega, hid⟩
    · rw [if_neg ha] at h
      obtain ⟨i, hi, hav, hpos, hid⟩ := ih (n + 1) h
      exact ⟨i + 1, Nat.succ_lt_succ hi, hav, by omega, hid⟩

lemma playlist_tracks_shift (n : Nat) (l : List SdkTrack) :
    ((List.enumFrom n l).filterMap fun p =>
        if p.2.available then some { parse_track p.2 with position := p.1 + 1 } else none)
      = (List.enumFrom (n + 1) l).filterMap fun p =>
        if p.2.available then some { parse_track p.2 with position := p.1 } else none := by
  induction l generalizing n with
  | nil => rfl
  | cons t ts ih =>
    rw [show List.enumFrom n (t :: ts) = (n, t) :: List.enumFrom (n + 1) ts from rfl,
      show List.enumFrom (n + 1) (t :: ts) = (n + 1, t) :: List.enumFrom (n + 2) ts from rfl]
    rw [List.filterMap_cons, List.filterMap_cons]
    dsimp only
    by_cases ha : t.available = true
    · rw [if_pos ha]
      dsimp only
      rw [ih]
    · rw [if_neg ha]
      dsimp only
      rw [ih]

lemma playlist_eq_album (tracks : List SdkTrack) :
    TidalProvider.get_playlist_tracks tracks = TidalProvider.get_album_tracks tracks := by
  unfold TidalProvider.get_playlist_tracks TidalProvider.get_album_tracks
  rw [show tracks.enum = List.enumFrom 0 tracks from rfl]
  exact playlist_tracks_shift 0 tracks

/-- C4 (amended): the track listing operations include exactly the available
SDK tracks, in source order; each surviving track carries as its position its
1-based index in the ORIGINAL (unfiltered) SDK sequence — unavailable tracks
still advance the position counter — not a 1..N numbering of the filtered
result. The three listing operations compute identical results. -/
theorem TidalProvider.track_listing_filter_and_positions (tracks : List SdkTrack) :
    ((TidalProvider.get_album_tracks tracks).map MaTrack.item_id
      = (tracks.filter fun t => t.available).map SdkTrack.id)
    ∧ (∀ tr ∈ TidalProvider.get_album_tracks tracks, ∃ i, ∃ hi : i < tracks.length,
        (tracks.get ⟨i, hi⟩).available = true ∧ tr.position = i + 1
        ∧ tr.item_id = (tracks.get ⟨i, hi⟩).id)
    ∧ TidalProvider.get_artist_toptracks tracks = TidalProvider.get_album_tracks tracks
    ∧ TidalProvider.get_playlist_tracks tracks = TidalProvider.get_album_tracks tracks := by
  refine ⟨album_tracks_map_id 1 tracks, ?_, rfl, playlist_eq_album tracks⟩
  intro tr htr
  obtain ⟨i, hi, hav, hpos, hid⟩ := album_tracks_mem 1 tracks tr htr
  exact ⟨i, hi, hav, by omega, hid⟩

theorem TidalProvider.track_listing_filter_and_positions_witness :
    (⟨"b", 120, 2⟩ : MaTrack) ∈ TidalProvider.get_album_tracks
        [⟨"a", 100, false⟩, ⟨"b", 120, true⟩]
    ∧ ∃ i, ∃ hi : i < ([⟨"a", 100, false⟩, ⟨"b", 120, true⟩] : List SdkTrack).length,
        (([⟨"a", 100, false⟩, ⟨"b", 120, true⟩] : List SdkTrack).get ⟨i, hi⟩).available = true
        ∧ (⟨"b", 120, 2⟩ : MaTrack).position = i + 1
        ∧ (⟨"b", 120, 2⟩ : MaTrack).item_id
            = (([⟨"a", 100, false⟩, ⟨"b", 120, true⟩] : List SdkTrack).get ⟨i, hi⟩).id :=
  ⟨by decide,
    (TidalProvider.track_listing_filter_and_positions _).2.1 _ (by decide)⟩

/-- C4 counterexample: with an unavailable track ahead of an available one the
single surviving track carries position 2, so the position list is not
`1..N` over the filtered sequence as the claim states. -/
theorem TidalProvider.track_listing_positions_counterexample :
    ¬ ((TidalProvider.get_album_tracks [⟨"a", 100, false⟩, ⟨"b", 120, true⟩]).map
        MaTrack.position
      = List.range' 1 (TidalProvider.get_album_tracks
          [⟨"a", 100, false⟩, ⟨"b", 120, true⟩]).length) := by decide

lemma removal_loop_mem (positions : List Nat) (l : List MaTrack) (acc : List String)
    (x : String) (hx : x ∈ TidalProvider.remove_playlist_tracks_loop positions l acc) :
    x ∈ acc ∨ ∃ tr ∈ l, tr.position ∈ positions ∧ x = tr.item_id := by
  induction l generalizing acc with
  | nil => exact Or.inl hx
  | cons t rest ih =>
    simp only [TidalProvider.remove_playlist_tracks_loop] at hx
    by_cases hmem : t.position ∈ positions
    · rw [if_pos hmem] at hx
      by_cases hbrk : (acc ++ [t.item_id]).length = positions.length
      · rw [if_pos hbrk] at hx
        rcases List.mem_append.mp hx with h1 | h2
        · exact Or.inl h1
        · exact Or.inr ⟨t, List.mem_cons_self t rest, hmem, by simpa using h2⟩
      · rw [if_neg hbrk] at hx
        rcases ih (acc ++ [t.item_id]) hx with h1 | ⟨tr, htr, hp, hxid⟩
        · rcases List.mem_append.mp h1 with h1a | h1b
          · exact Or.inl h1a
          · exact Or.inr ⟨t, List.mem_cons_self t rest, hmem, by simpa using h1b⟩
        · exact Or.inr ⟨tr, List.mem_cons_of_mem t htr, hp, hxid⟩
    · rw [if_neg hmem] at hx
      by_cases hbrk : acc.length = positions.length
      · rw [if_pos hbrk] at hx
        exact Or.inl hx
      · rw [if_neg hbrk] at hx
        rcases ih acc hx with h1 | ⟨tr, htr, hp, hxid⟩
        · exact Or.inl h1
        · exact Or.inr ⟨tr, List.mem_cons_of_mem t htr, hp, hxid⟩

lemma removal_loop_early_stop (positions : List Nat) (extra : List MaTrack)
    (l : List MaTrack) (acc : List String)
    (hlt : acc.length < positions.length)
    (hfull : (TidalProvider.remove_playlist_tracks_loop positions l acc).length
      = positions.length) :
    TidalProvider.remove_playlist_tracks_loop positions (l ++ extra) acc =
      TidalProvider.remove_playlist_tracks_loop positions l acc := by
  induction l generalizing acc with
  | nil =>
    simp only [TidalProvider.remove_playlist_tracks_loop] at hfull
    omega
  | cons t rest ih =>
    rw [List.cons_append]
    simp only [TidalProvider.remove_playlist_tracks_loop] at hfull ⊢
    by_cases hmem : t.position ∈ positions
    · simp only [if_pos hmem] at hfull ⊢
      by_cases hbrk : (acc ++ [t.item_id]).length = positions.length
      · simp only [if_pos hbrk] at hfull ⊢
      · simp only [if_neg hbrk] at hfull ⊢
        have hlen : (acc ++ [t.item_id]).length = acc.length + 1 := by simp
        exact ih (acc ++ [t.item_id]) (by omega) hfull
    · simp only [if_neg hmem] at hfull ⊢
      have hbrk : ¬ acc.length = positions.length := by omega
      simp only [if_neg hbrk] at hfull ⊢
      exact ih acc hlt hfull

lemma removal_loop_nil_positions (l : List MaTrack) :
    TidalProvider.remove_playlist_tracks_loop [] l [] = [] := by
  cases l with
  | nil => rfl
  | cons t rest => simp [TidalProvider.remove_playlist_tracks_loop]

/-- C5: on a 5-track playlist of available tracks, removal at positions
{2, 4} hands the batch removal exactly the ids of the tracks at positions 2
and 4; every id handed to the batch removal is the id of some playlist track
whose computed position is in the requested set (so a position beyond the
playlist length matches no track, removes nothing, and raises no error: the
operation is total); and once as many ids as requested positions have been
collected, later playlist entries no longer influence the collected ids. -/
theorem TidalProvider.remove_playlist_tracks_spec :
    (∀ t₁ t₂ t₃ t₄ t₅ : SdkTrack,
      t₁.available = true → t₂.available = true → t₃.available = true →
      t₄.available = true → t₅.available = true →
      TidalProvider.remove_playlist_tracks [t₁, t₂, t₃, t₄, t₅] [2, 4]
        = [t₂.id, t₄.id])
    ∧ (∀ (tracks : List SdkTrack) (positions : List Nat) (x : String),
        x ∈ TidalProvider.remove_playlist_tracks tracks positions →
        ∃ tr ∈ TidalProvider.get_playlist_tracks tracks,
          tr.position ∈ positions ∧ x = tr.item_id)
    ∧ (∀ (positions : List Nat) (l extra : List MaTrack),
        (TidalProvider.remove_playlist_tracks_loop positions l []).length
          = positions.length →
        TidalProvider.remove_playlist_tracks_loop positions (l ++ extra) []
          = TidalProvider.remove_playlist_tracks_loop positions l []) := by
  refine ⟨?_, ?_, ?_⟩
  · intro t₁ t₂ t₃ t₄ t₅ h₁ h₂ h₃ h₄ h₅
    have hpl : TidalProvider.get_playlist_tracks [t₁, t₂, t₃, t₄, t₅]
        = [⟨t₁.id, t₁.duration, 1⟩, ⟨t₂.id, t₂.duration, 2⟩, ⟨t₃.id, t₃.duration, 3⟩,
           ⟨t₄.id, t₄.duration, 4⟩, ⟨t₅.id, t₅.duration, 5⟩] := by
      simp [TidalProvider.get_playlist_tracks, List.enum, List.enumFrom,
        h₁, h₂, h₃, h₄, h₅, parse_track]
    unfold TidalProvider.remove_playlist_tracks
    rw [hpl]
    simp [TidalProvider.remove_playlist_tracks_loop]
  · intro tracks positions x hx
    rcases removal_loop_mem positions (TidalProvider.get_playlist_tracks tracks) [] x hx
      with h | h
    · simp at h
    · exact h
  · intro positions l extra hfull
    rcases Nat.eq_zero_or_pos positions.length with hz | hp
    · have hpz : positions = [] := List.length_eq_zero.mp hz
      subst hpz
      rw [removal_loop_nil_positions, removal_loop_nil_positions]
    · exact removal_loop_early_stop positions extra l [] (by simpa using hp) hfull

theorem TidalProvider.remove_playlist_tracks_spec_witness :
    ((⟨"a", 1, true⟩ : SdkTrack).available = true)
    ∧ TidalProvider.remove_playlist_tracks
        [⟨"a", 1, true⟩, ⟨"b", 2, true⟩, ⟨"c", 3, true⟩, ⟨"d", 4, true⟩, ⟨"e", 5, true⟩]
        [2, 4] = ["b", "d"]
    ∧ (∃ tr ∈ TidalProvider.get_playlist_tracks
        [⟨"a", 1, true⟩, ⟨"b", 2, true⟩, ⟨"c", 3, true⟩, ⟨"d", 4, true⟩, ⟨"e", 5, true⟩],
        tr.position ∈ [2, 4] ∧ "b" = tr.item_id)
    ∧ TidalProvider.remove_playlist_tracks_loop [2, 4]
        (TidalProvider.get_playlist_tracks
          [⟨"a", 1, true⟩, ⟨"b", 2, true⟩, ⟨"c", 3, true⟩, ⟨"d", 4, true⟩, ⟨"e", 5, true⟩]
          ++ [⟨"f", 6, 6⟩]) []
      = TidalProvider.remove_playlist_tracks_loop [2, 4]
        (TidalProvider.get_playlist_tracks
          [⟨"a", 1, true⟩, ⟨"b", 2, true⟩, ⟨"c", 3, true⟩, ⟨"d", 4, true⟩, ⟨"e", 5, true⟩]) [] :=
  ⟨rfl,
    TidalProvider.remove_playlist_tracks_spec.1 _ _ _ _ _ rfl rfl rfl rfl rfl,
    TidalProvider.remove_playlist_tracks_spec.2.1 _ [2, 4] "b" (by decide),
    TidalProvider.remove_playlist_tracks_spec.2.2 [2, 4] _ [⟨"f", 6, 6⟩] (by decide)⟩

/-- C6: when the SDK metadata lookup yields no track, `get_stream_details`
fails with a not-found error whose message names the requested identifier (and
performs no `login`); when the lookup succeeds and the session re-validation
succeeds, it calls `login` once and returns the descriptor carrying the
track's id, the provider tag, the fixed FLAC encoding, the track's duration,
and the direct URL, in the post-login state. -/
theorem TidalProvider.get_stream_details_spec (st : TidalState) (cfg : Config)
    (instance_id item_id : String) (now : Int) (urlLookup : String)
    (sdk : Except String SessionObj) :
    (TidalProvider.get_stream_details st cfg instance_id item_id now none urlLookup sdk
        = ⟨st, cfg, .error (.mediaNotFound ("track " ++ item_id ++ " not found")), 0⟩
      ∧ ∃ pre post, "track " ++ item_id ++ " not found" = pre ++ item_id ++ post)
    ∧ ∀ (track : SdkTrack) (s : SessionObj),
        (TidalProvider.login st cfg instance_id now sdk).result = .ok s →
        TidalProvider.get_stream_details st cfg instance_id item_id now (some track)
            urlLookup sdk
          = ⟨(TidalProvider.login st cfg instance_id now sdk).state,
              (TidalProvider.login st cfg instance_id now sdk).config,
              .ok ⟨track.id, instance_id, .flac, track.duration, urlLookup⟩, 1⟩ := by
  refine ⟨⟨rfl, "track ", " not found", rfl⟩, ?_⟩
  intro track s hok
  unfold TidalProvider.get_stream_details
  dsimp only
  rw [hok]

theorem TidalProvider.get_stream_details_spec_witness :
    (TidalProvider.get_stream_details initState [] "tidal" "42" 0 none "http"
        (.ok ⟨"a", "r", 9, 5⟩)
      = ⟨initState, [], .error (.mediaNotFound ("track " ++ "42" ++ " not found")), 0⟩
      ∧ ∃ pre post, "track " ++ "42" ++ " not found" = pre ++ "42" ++ post)
    ∧ ((TidalProvider.login initState [] "tidal" 0 (.ok ⟨"a", "r", 9, 5⟩)).result
      = .ok ⟨"a", "r", 9, 5⟩)
    ∧ TidalProvider.get_stream_details initState [] "tidal" "42" 0
        (some ⟨"42", 180, true⟩) "http" (.ok ⟨"a", "r", 9, 5⟩)
      = ⟨(TidalProvider.login initState [] "tidal" 0 (.ok ⟨"a", "r", 9, 5⟩)).state,
          (TidalProvider.login initState [] "tidal" 0 (.ok ⟨"a", "r", 9, 5⟩)).config,
          .ok ⟨"42", "tidal", .flac, 180, "http"⟩, 1⟩ :=
  ⟨(TidalProvider.get_stream_details_spec initState [] "tidal" "42" 0 "http"
      (.ok ⟨"a", "r", 9, 5⟩)).1,
    by decide,
    (TidalProvider.get_stream_details_spec initState [] "tidal" "42" 0 "http"
      (.ok ⟨"a", "r", 9, 5⟩)).2 ⟨"42", 180, true⟩ ⟨"a", "r", 9, 5⟩ (by decide)⟩

/-- C7: each single-entity fetch operation re-raises a not-found failure from
the fetch with a message naming the requested id and its entity kind
(`get_track "missing-id"` in particular yields a message containing the
literal "missing-id"), and propagates every other failure unchanged. -/
theorem TidalProvider.entity_fetch_not_found_boundary :
    (∀ (prov_track_id m : String),
      TidalProvider.get_track (.error (.mediaNotFound m)) prov_track_id
        = .error (.mediaNotFound ("Track " ++ prov_track_id ++ " not found"))
      ∧ ∃ pre post, "Track " ++ prov_track_id ++ " not found"
          = pre ++ prov_track_id ++ post)
    ∧ (∀ (prov_artist_id m : String),
      TidalProvider.get_artist (.error (.mediaNotFound m)) prov_artist_id
        = .error (.mediaNotFound ("Artist " ++ prov_artist_id ++ " not found"))
      ∧ ∃ pre post, "Artist " ++ prov_artist_id ++ " not found"
          = pre ++ prov_artist_id ++ post)
    ∧ (∀ (prov_album_id m : String),
      TidalProvider.get_album (.error (.mediaNotFound m)) prov_album_id
        = .error (.mediaNotFound ("Album " ++ prov_album_id ++ " not found"))
      ∧ ∃ pre post, "Album " ++ prov_album_id ++ " not found"
          = pre ++ prov_album_id ++ post)
    ∧ (∀ (prov_playlist_id m : String),
      TidalProvider.get_playlist (.error (.mediaNotFound m)) prov_playlist_id
        = .error (.mediaNotFound ("Playlist " ++ prov_playlist_id ++ " not found"))
      ∧ ∃ pre post, "Playlist " ++ prov_playlist_id ++ " not found"
          = pre ++ prov_playlist_id ++ post)
    ∧ (∀ (requested_id : String) (e : PyErr), (∀ m, e ≠ .mediaNotFound m) →
      TidalProvider.get_track (.error e) requested_id = .error e
      ∧ TidalProvider.get_artist (.error e) requested_id = .error e
      ∧ TidalProvider.get_album (.error e) requested_id = .error e
      ∧ TidalProvider.get_playlist (.error e) requested_id = .error e)
    ∧ TidalProvider.get_track (.error (.mediaNotFound "x")) "missing-id"
        = .error (.mediaNotFound "Track missing-id not found") := by
  refine ⟨fun i m => ⟨rfl, "Track ", " not found", rfl⟩,
    fun i m => ⟨rfl, "Artist ", " not found", rfl⟩,
    fun i m => ⟨rfl, "Album ", " not found", rfl⟩,
    fun i m => ⟨rfl, "Playlist ", " not found", rfl⟩,
    ?_, by decide⟩
  intro requested_id e he
  cases e with
  | typeError => exact ⟨rfl, rfl, rfl, rfl⟩
  | valueError => exact ⟨rfl, rfl, rfl, rfl⟩
  | sdkFailure d => exact ⟨rfl, rfl, rfl, rfl⟩
  | mediaNotFound m => exact absurd rfl (he m)
  | otherError d => exact ⟨rfl, rfl, rfl, rfl⟩

theorem TidalProvider.entity_fetch_not_found_boundary_witness :
    (TidalProvider.get_track (.error (.mediaNotFound "x")) "missing-id"
      = .error (.mediaNotFound ("Track " ++ "missing-id" ++ " not found"))
      ∧ ∃ pre post, "Track " ++ "missing-id" ++ " not found"
          = pre ++ "missing-id" ++ post)
    ∧ (∀ m, (PyErr.otherError "boom") ≠ .mediaNotFound m)
    ∧ TidalProvider.get_track (.error (.otherError "boom")) "id1"
        = .error (.otherError "boom") :=
  ⟨TidalProvider.entity_fetch_not_found_boundary.1 "missing-id" "x",
    fun _ h => PyErr.noConfusion h,
    (TidalProvider.entity_fetch_not_found_boundary.2.2.2.2.1 "id1"
      (.otherError "boom") (fun _ h => PyErr.noConfusion h)).1⟩

/-- C8: the query submitted to the catalog lookup is the input with every
apostrophe removed: no apostrophe survives, the submitted character sequence
is a subsequence of the input (order preserved), every non-apostrophe
character keeps its multiplicity, and in particular the query
`"O'Brien"` is submitted as `"OBrien"`. -/
theorem TidalProvider.search_strips_apostrophes (q : String) (limit : Nat) :
    apostrophe ∉ (TidalProvider.search q limit).query.data
    ∧ (TidalProvider.search q limit).query.data.Sublist q.data
    ∧ (∀ c, c ≠ apostrophe →
        (TidalProvider.search q limit).query.data.count c = q.data.count c)
    ∧ (TidalProvider.search ("O" ++ String.singleton apostrophe ++ "Brien") 5).query
      = "OBrien" := by
  refine ⟨?_, ?_, ?_, by decide⟩
  · intro hmem
    have hp := List.of_mem_filter hmem
    simp at hp
  · exact List.filter_sublist q.data
  · intro c hc
    apply List.count_filter
    simp [hc]

theorem TidalProvider.search_strips_apostrophes_witness :
    (('B' : Char) ≠ apostrophe)
    ∧ (TidalProvider.search ("O" ++ String.singleton apostrophe ++ "Brien") 5).query.data.count 'B'
      = ("O" ++ String.singleton apostrophe ++ "Brien").data.count 'B' :=
  ⟨by decide,
    (TidalProvider.search_strips_apostrophes
      ("O" ++ String.singleton apostrophe ++ "Brien") 5).2.2.1 'B' (by decide)⟩

/-- C9: `create_playlist` performs exactly one remote playlist-creation call
and exactly one host-database persistence call, and returns the persisted
translation of the remote playlist; when the remote creation carries the
requested name and persistence preserves names, the returned playlist carries
that name. -/
theorem TidalProvider.create_playlist_spec (sdkCreate : String → SdkPlaylist)
    (add_db_item : MaPlaylist → MaPlaylist) (name : String) :
    ((TidalProvider.create_playlist sdkCreate add_db_item name).2.countP
        (fun e => match e with | .remoteCreate _ => true | _ => false) = 1)
    ∧ ((TidalProvider.create_playlist sdkCreate add_db_item name).2.countP
        (fun e => match e with | .dbAdd _ => true | _ => false) = 1)
    ∧ (TidalProvider.create_playlist sdkCreate add_db_item name).1
        = add_db_item (parse_playlist (sdkCreate name))
    ∧ ((sdkCreate name).name = name →
        (∀ p, (add_db_item p).name = p.name) →
        (TidalProvider.create_playlist sdkCreate add_db_item name).1.name = name) := by
  refine ⟨rfl, rfl, rfl, ?_⟩
  intro hecho hdb
  show (add_db_item (parse_playlist (sdkCreate name))).name = name
  rw [hdb]
  exact hecho

theorem TidalProvider.create_playlist_spec_witness :
    (((fun n => (⟨"pl1", n⟩ : SdkPlaylist)) "My Mix").name = "My Mix")
    ∧ (∀ p : MaPlaylist, (id p).name = p.name)
    ∧ (TidalProvider.create_playlist (fun n => ⟨"pl1", n⟩) id "My Mix").1.name
        = "My Mix" :=
  ⟨rfl, fun _ => rfl,
    (TidalProvider.create_playlist_spec (fun n => ⟨"pl1", n⟩) id "My Mix").2.2.2
      rfl (fun _ => rfl)⟩
